import Mathlib

/-!
Verification of the jnv reactive query/search pipeline specification
against the repository sources (`src/main.rs`, `src/config.rs`).

The embedding mirrors the Rust sources shallowly:
- durations (`tokio::time::Duration`) are modelled as milliseconds (`Nat`);
- terminal styles (`crossterm::style::ContentStyle`) are modelled by a
  minimal structure carrying the fields the defaults set;
- fallible Rust functions returning `anyhow::Result` become `Except String`;
- the filesystem touched by `ensure_file_exists` / `determine_config_file`
  becomes an explicit state threaded through the calls, with an oracle
  deciding which create operations succeed.

Components of the pipeline whose modules are referenced by `main.rs` but are
absent from the provided sources (the Debounce Scheduler, the View State
Aggregator, the Suggestion Loader, the Spinner Coordinator, the Query
Evaluator, the Lazy JSON Row Formatter) are modelled from the specification;
each such definition carries a doc comment starting `Modelled from the spec:`.
-/

namespace Jnv

/-! ## Embedding of `src/config.rs` -/

/-- Colors used by the default styles in `config.rs`. -/
inductive Color where
  | blue | magenta | cyan | green | grey | yellow
  deriving DecidableEq, Repr

/-- Text attributes used by the default styles in `config.rs`. -/
inductive TextAttribute where
  | bold | dim
  deriving DecidableEq, Repr

/-- Minimal model of `crossterm::style::ContentStyle`: the fields the
defaults in `config.rs` actually set. -/
structure ContentStyle where
  foreground_color : Option Color := none
  background_color : Option Color := none
  attributes : List TextAttribute := []
  deriving DecidableEq, Repr

/-- `CompletionConfig` from `src/config.rs`. -/
structure CompletionConfig where
  lines : Option Nat
  cursor : String
  search_result_chunk_size : Nat
  search_load_chunk_size : Nat
  active_item_style : ContentStyle
  inactive_item_style : ContentStyle
  deriving DecidableEq, Repr

/-- `CompletionConfig::default` from `src/config.rs`. -/
def CompletionConfig.default : CompletionConfig where
  lines := some 3
  cursor := "❯ "
  search_result_chunk_size := 100
  search_load_chunk_size := 50000
  active_item_style :=
    { foreground_color := some Color.grey
      background_color := some Color.yellow }
  inactive_item_style :=
    { foreground_color := some Color.grey }

/-- `ReactivityControl` from `src/config.rs`; durations in milliseconds. -/
structure ReactivityControl where
  query_debounce_duration : Nat
  resize_debounce_duration : Nat
  spin_duration : Nat
  deriving DecidableEq, Repr

/-- `ReactivityControl::default` from `src/config.rs`:
`Duration::from_millis(600)`, `Duration::from_millis(200)`,
`Duration::from_millis(300)`. -/
def ReactivityControl.default : ReactivityControl where
  query_debounce_duration := 600
  resize_debounce_duration := 200
  spin_duration := 300

/-- Modelled from the spec: the flat `Config` that `main.rs` destructures
(`search_result_chunk_size`, `query_debounce_duration`,
`resize_debounce_duration`, `search_load_chunk_size`, `active_item_style`,
`inactive_item_style`, `spin_duration`).  Its definition is missing from the
provided `config.rs` (which carries the same leaf values nested inside
`CompletionConfig` and `ReactivityControl`); per the spec these are the same
configuration inputs, so its defaults are drawn from
`CompletionConfig.default` and `ReactivityControl.default`. -/
structure MainConfig where
  search_result_chunk_size : Nat
  query_debounce_duration : Nat
  resize_debounce_duration : Nat
  search_load_chunk_size : Nat
  active_item_style : ContentStyle
  inactive_item_style : ContentStyle
  spin_duration : Nat
  deriving DecidableEq, Repr

/-- Modelled from the spec: defaults of the flat `Config` used by `main.rs`,
taken field-by-field from `CompletionConfig.default` and
`ReactivityControl.default` in `config.rs`. -/
def MainConfig.default : MainConfig where
  search_result_chunk_size := CompletionConfig.default.search_result_chunk_size
  query_debounce_duration := ReactivityControl.default.query_debounce_duration
  resize_debounce_duration := ReactivityControl.default.resize_debounce_duration
  search_load_chunk_size := CompletionConfig.default.search_load_chunk_size
  active_item_style := CompletionConfig.default.active_item_style
  inactive_item_style := CompletionConfig.default.inactive_item_style
  spin_duration := ReactivityControl.default.spin_duration

/-! ## Embedding of `src/main.rs`: CLI validation -/

/-- `promkit::text_editor::Mode`. -/
inductive Mode where
  | insert
  | overwrite
  deriving DecidableEq, Repr

/-- `edit_mode_validator` from `src/main.rs`:
`"insert" | "" => Insert`, `"overwrite" => Overwrite`, otherwise an error. -/
def edit_mode_validator (val : String) : Except String Mode :=
  match val with
  | "insert" | "" => Except.ok Mode.insert
  | "overwrite" => Except.ok Mode.overwrite
  | _ => Except.error "edit-mode must be 'insert' or 'overwrite'"

/-! ## Embedding of `src/main.rs`: searcher wiring -/

/-- The part of `IncrementalSearcher::new(listbox_state, chunk_size)` state
that the configuration wires in: the result-chunk size it was constructed
with.  The searcher module itself is absent from the provided sources; this
records exactly the argument `main.rs` passes. -/
structure IncrementalSearcher where
  search_result_chunk_size : Nat
  deriving DecidableEq, Repr

/-- `IncrementalSearcher::new` as called from `main.rs` line 248. -/
def IncrementalSearcher.new (chunk_size : Nat) : IncrementalSearcher :=
  { search_result_chunk_size := chunk_size }

/-- The configuration-derived arguments of
`searcher.spawn_load_task(provider, item, search_load_chunk_size)`:
the load-chunk size handed to the suggestion-load task. -/
structure LoadTask where
  search_load_chunk_size : Nat
  deriving DecidableEq, Repr

/-- `spawn_load_task` as called from `main.rs` line 281. -/
def IncrementalSearcher.spawn_load_task (_s : IncrementalSearcher)
    (load_chunk_size : Nat) : LoadTask :=
  { search_load_chunk_size := load_chunk_size }

/-- The wiring performed by `main` (`src/main.rs` lines 230-281): destructure
the configuration, build the searcher from `search_result_chunk_size`, and
spawn the load task with `search_load_chunk_size`. -/
def mainWiring (config : MainConfig) : IncrementalSearcher × LoadTask :=
  let searcher := IncrementalSearcher.new config.search_result_chunk_size
  (searcher, searcher.spawn_load_task config.search_load_chunk_size)

/-! ## Embedding of `src/main.rs`: configuration file creation

The filesystem is made explicit: a state of existing directories and files,
threaded through the calls, with an oracle deciding which create operations
succeed (modelling the fallibility of `std::fs::create_dir_all` and
`std::fs::File::create`). -/

/-- A filesystem path, as its list of components. -/
abbrev FsPath := List String

/-- Explicit filesystem state: existing directories, and files with their
contents. -/
structure FileSystem where
  dirs : List FsPath
  files : List (FsPath × String)
  deriving DecidableEq, Repr

/-- Rust `Path::exists`: true for an existing file or directory. -/
def FileSystem.pathExists (fs : FileSystem) (p : FsPath) : Bool :=
  fs.files.any (fun kv => kv.1 == p) || fs.dirs.contains p

/-- Oracle deciding which filesystem create operations succeed. -/
structure IoOracle where
  canCreateDir : FsPath → Bool
  canCreateFile : FsPath → Bool

/-- Rust `Path::parent`: `none` for the empty path, otherwise the path with
its last component dropped. -/
def FsPath.parent (p : FsPath) : Option FsPath :=
  if p.isEmpty then none else some p.dropLast

/-- `std::fs::create_dir_all(parent)` as used by `ensure_file_exists`. -/
def create_dir_all (io : IoOracle) (fs : FileSystem) (p : FsPath) :
    Except String FileSystem :=
  if io.canCreateDir p then Except.ok { fs with dirs := p :: fs.dirs }
  else Except.error "Failed to create directory"

/-- `File::create(path)?.write_all(content)` as used by
`ensure_file_exists`. -/
def file_create_write (io : IoOracle) (fs : FileSystem) (p : FsPath)
    (content : String) : Except String FileSystem :=
  if io.canCreateFile p then Except.ok { fs with files := (p, content) :: fs.files }
  else Except.error "Failed to create file"

/-- `toml::to_string_pretty` on the default configuration.  The claims do
not depend on the rendered text, only that the serialized default
configuration is what gets written; the rendering here lists the scalar
fields of the flat configuration. -/
def toml_to_string_pretty (c : MainConfig) : String :=
  String.intercalate "\n"
    ["search_result_chunk_size = " ++ toString c.search_result_chunk_size,
     "query_debounce_duration = " ++ toString c.query_debounce_duration,
     "resize_debounce_duration = " ++ toString c.resize_debounce_duration,
     "search_load_chunk_size = " ++ toString c.search_load_chunk_size,
     "spin_duration = " ++ toString c.spin_duration]

/-- `ensure_file_exists` from `src/main.rs`: return `Ok` at once when the
path exists; otherwise create the parent directories and write the
serialized default configuration. -/
def ensure_file_exists (io : IoOracle) (fs : FileSystem) (path : FsPath)
    (default_config : MainConfig) : Except String FileSystem :=
  if fs.pathExists path then Except.ok fs
  else
    match (match FsPath.parent path with
           | some parent => create_dir_all io fs parent
           | none => Except.ok fs) with
    | Except.error e => Except.error e
    | Except.ok fs1 =>
        file_create_write io fs1 path (toml_to_string_pretty default_config)

/-- `determine_config_file` from `src/main.rs`: use the provided path if
any, else the default path `config_dir/jnv/config.toml` (erroring when the
configuration directory cannot be determined); in both branches the file is
created when absent. -/
def determine_config_file (io : IoOracle) (fs : FileSystem)
    (config_path : Option FsPath) (config_dir : Option FsPath)
    (default_config : MainConfig) : Except String (FsPath × FileSystem) :=
  match config_path with
  | some path =>
      match ensure_file_exists io fs path default_config with
      | Except.error e => Except.error e
      | Except.ok fs1 => Except.ok (path, fs1)
  | none =>
      match config_dir with
      | none => Except.error "Failed to determine the configuration directory"
      | some d =>
          let default_path := d ++ ["jnv", "config.toml"]
          match ensure_file_exists io fs default_path default_config with
          | Except.error e => Except.error e
          | Except.ok fs1 => Except.ok (default_path, fs1)

/-! ## Spinner Coordinator (module absent from the provided sources) -/

/-- Modelled from the spec: `SpinnerState` — a reference count of busy async
units and an animation frame index; `active` is derived from the count. -/
structure SpinnerState where
  count : Int
  phase : Nat
  deriving DecidableEq, Repr

/-- Modelled from the spec: the spinner before any unit is in flight. -/
def SpinnerState.init : SpinnerState := ⟨0, 0⟩

/-- Modelled from the spec: `active` is true while any tracked async unit is
in flight, i.e. while the reference count is positive. -/
def SpinnerState.active (s : SpinnerState) : Bool := decide (0 < s.count)

/-- Modelled from the spec: `mark_busy(unit_id)` increments the reference
count of busy units. -/
def mark_busy (s : SpinnerState) : SpinnerState := { s with count := s.count + 1 }

/-- Modelled from the spec: `mark_idle(unit_id)` decrements the reference
count; called on every exit path of the unit it brackets. -/
def mark_idle (s : SpinnerState) : SpinnerState := { s with count := s.count - 1 }

/-- A call into the Spinner Coordinator. -/
inductive SpinOp where
  | busy
  | idle
  deriving DecidableEq, Repr

/-- One coordinator call applied to the spinner state. -/
def spinStep (s : SpinnerState) : SpinOp → SpinnerState
  | SpinOp.busy => mark_busy s
  | SpinOp.idle => mark_idle s

/-- A sequence of coordinator calls applied in order. -/
def spinRun (s : SpinnerState) (ops : List SpinOp) : SpinnerState :=
  ops.foldl spinStep s

/-! ## Query Evaluator (module absent from the provided sources) -/

/-- JSON values (numbers as integers; no claim touches numeric detail). -/
inductive Json where
  | null
  | bool (b : Bool)
  | num (n : Int)
  | str (s : String)
  | arr (elems : List Json)
  | obj (entries : List (String × Json))

/-- The external filter-evaluation engine, as a black box: it receives an
expression and a document and returns a value, no output, or an error. -/
abbrev Engine := String → Json → Except String (Option Json)

/-- Evaluation outcomes held in `QueryState`. -/
inductive Outcome where
  | pending
  | ok (value : Json)
  | empty
  | evalError (message : String)

/-- Modelled from the spec: the Query Evaluator
(`evaluate(expression, document, generation) -> outcome`): an empty
expression is treated as "pass the document through unchanged"
(`Ok(document)`) without invoking the engine; otherwise the engine's value
becomes `Ok`, no output becomes `Empty`, and an engine error becomes
`EvalError`. -/
def evaluate (engine : Engine) (expr : String) (document : Json) : Outcome :=
  if expr = "" then Outcome.ok document
  else
    match engine expr document with
    | Except.ok (some v) => Outcome.ok v
    | Except.ok none => Outcome.empty
    | Except.error msg => Outcome.evalError msg

/-! ## Lazy JSON Row Formatter (module absent from the provided sources) -/

/-- A step in the path to a JSON node. -/
inductive PathSeg where
  | key (k : String)
  | index (i : Nat)
  deriving DecidableEq, Repr

/-- The path of a JSON node: the segments from the root. -/
abbrev JsonPath := List PathSeg

/-- Modelled from the spec: `FoldState` — which node paths are marked
collapsed. -/
structure FoldState where
  collapsed : List JsonPath
  deriving DecidableEq, Repr

/-- Whether a node path is marked collapsed. -/
def FoldState.isCollapsed (f : FoldState) (p : JsonPath) : Bool :=
  f.collapsed.contains p

/-- The style class a display row carries. -/
inductive StyleClass where
  | curly
  | square
  | key
  | stringValue
  | numberValue
  | booleanValue
  | nullValue
  deriving DecidableEq, Repr

/-- One display row: its depth, its left padding (depth times the indent
width), its style class, and whether it is a collapsed-subtree
placeholder. -/
structure Row where
  depth : Nat
  pad : Nat
  style : StyleClass
  collapsedPlaceholder : Bool
  deriving DecidableEq, Repr

mutual

/-- Modelled from the spec: the Lazy JSON Row Formatter's recursion — a
container whose path is collapsed renders as a single placeholder row;
otherwise it renders an opening delimiter row, one row span per child, and
a closing delimiter row; scalars render as one styled row. -/
def formatRows (fold : FoldState) (indent : Nat) (path : JsonPath)
    (depth : Nat) : Json → List Row
  | Json.null => [⟨depth, depth * indent, StyleClass.nullValue, false⟩]
  | Json.bool _ => [⟨depth, depth * indent, StyleClass.booleanValue, false⟩]
  | Json.num _ => [⟨depth, depth * indent, StyleClass.numberValue, false⟩]
  | Json.str _ => [⟨depth, depth * indent, StyleClass.stringValue, false⟩]
  | Json.arr elems =>
      if fold.isCollapsed path then [⟨depth, depth * indent, StyleClass.square, true⟩]
      else
        ⟨depth, depth * indent, StyleClass.square, false⟩ ::
          (formatElems fold indent path (depth + 1) 0 elems ++
            [⟨depth, depth * indent, StyleClass.square, false⟩])
  | Json.obj entries =>
      if fold.isCollapsed path then [⟨depth, depth * indent, StyleClass.curly, true⟩]
      else
        ⟨depth, depth * indent, StyleClass.curly, false⟩ ::
          (formatEntries fold indent path (depth + 1) entries ++
            [⟨depth, depth * indent, StyleClass.curly, false⟩])

/-- Row spans of the elements of an array, in order. -/
def formatElems (fold : FoldState) (indent : Nat) (path : JsonPath)
    (depth : Nat) (i : Nat) : List Json → List Row
  | [] => []
  | v :: rest =>
      formatRows fold indent (path ++ [PathSeg.index i]) depth v ++
        formatElems fold indent path depth (i + 1) rest

/-- Row spans of the entries of an object, in order; each entry carries a
key row before its value's rows. -/
def formatEntries (fold : FoldState) (indent : Nat) (path : JsonPath)
    (depth : Nat) : List (String × Json) → List Row
  | [] => []
  | (k, v) :: rest =>
      ⟨depth, depth * indent, StyleClass.key, false⟩ ::
        (formatRows fold indent (path ++ [PathSeg.key k]) depth v ++
          formatEntries fold indent path depth rest)

end

/-- A record of the formatter's prior calls: the formatter is specified to
be stateless with respect to these. -/
structure FormatterSession where
  callLog : List (Json × FoldState × Nat)

/-- Modelled from the spec: `format(value, fold_state, indent)` invoked
through a session recording prior calls: it returns the row sequence of the
value from the root and the session extended with this call. -/
def format (session : FormatterSession) (value : Json) (fold : FoldState)
    (indent : Nat) : List Row × FormatterSession :=
  (formatRows fold indent [] 0 value,
    ⟨session.callLog ++ [(value, fold, indent)]⟩)

/-! ## Debounce Scheduler (module absent from the provided sources) -/

/-- Modelled from the spec: the scheduler's two states — `Idle`, or
`ArmedWithPayload(event, deadline)`. -/
inductive DebounceState (α : Type) where
  | idle
  | armed (event : α) (deadline : Nat)
  deriving DecidableEq, Repr

/-- The scheduler together with the trigger invocations it has made, in
order, with their payloads. -/
structure Debouncer (α : Type) where
  state : DebounceState α
  fired : List α
  deriving DecidableEq, Repr

/-- The scheduler before any call. -/
def Debouncer.init {α : Type} : Debouncer α := ⟨DebounceState.idle, []⟩

/-- Modelled from the spec: `schedule(event)` at time `t` records the
latest event and (re)starts a quiet-period timer; an armed timer whose
deadline already passed has fired with its payload before this call, and a
still-pending timer is cancelled and replaced. -/
def schedule {α : Type} (quiet : Nat) (d : Debouncer α) (t : Nat)
    (event : α) : Debouncer α :=
  match d.state with
  | DebounceState.idle =>
      { d with state := DebounceState.armed event (t + quiet) }
  | DebounceState.armed prev deadline =>
      if deadline ≤ t then
        { state := DebounceState.armed event (t + quiet),
          fired := d.fired ++ [prev] }
      else
        { d with state := DebounceState.armed event (t + quiet) }

/-- Modelled from the spec: time advancing past any armed deadline with no
further `schedule` call — on elapse the trigger is invoked exactly once with
the latest event and the scheduler returns to `Idle`. -/
def elapseAll {α : Type} (d : Debouncer α) : Debouncer α :=
  match d.state with
  | DebounceState.idle => d
  | DebounceState.armed e _ =>
      { state := DebounceState.idle, fired := d.fired ++ [e] }

/-- A whole run: the timestamped `schedule` calls in order, then the quiet
period elapsing with no further call. -/
def debounceRun {α : Type} (quiet : Nat) (calls : List (Nat × α)) :
    Debouncer α :=
  elapseAll (calls.foldl (fun d c => schedule quiet d c.1 c.2) Debouncer.init)

/-! ## Incremental Suggestion Loader (module absent from the provided
sources) -/

/-- Whether the cancellation token for the generation is no longer current
before iteration `iter` (0-based): `cancelAfter = some k` means the token
was invalidated once `k` iterations had completed; `none` means the
generation is never superseded. -/
def tokenStale : Option Nat → Nat → Bool
  | none, _ => false
  | some k, iter => decide (k ≤ iter)

/-- Modelled from the spec: from one scan window, the matches against the
query text, at most `resultChunk` of them, in window order. -/
def emitChunk (resultChunk : Nat) (needle : String)
    (window : List String) : List String :=
  (window.filter (fun s => needle.isPrefixOf s)).take resultChunk

/-- Modelled from the spec: the loader's chunk loop — before each window it
polls the cancellation token and stops if stale; otherwise it emits the
window's chunk and continues on the rest of the source.  `fuel` is the
length of the remaining source, which bounds the recursion. -/
def loadLoop (chunk resultChunk : Nat) (needle : String)
    (cancelAfter : Option Nat) : Nat → Nat → List String → List (List String)
  | _, _, [] => []
  | 0, _, _ :: _ => []
  | fuel + 1, iter, x :: rest =>
      if tokenStale cancelAfter iter then []
      else
        emitChunk resultChunk needle ((x :: rest).take chunk) ::
          loadLoop chunk resultChunk needle cancelAfter fuel (iter + 1)
            ((x :: rest).drop chunk)

/-- Modelled from the spec: `spawn_load(provider, expression, generation)`
run to completion or cancellation: the chunks delivered to the Aggregator
for the generation. -/
def loadRun (chunk resultChunk : Nat) (needle : String)
    (cancelAfter : Option Nat) (src : List String) : List (List String) :=
  loadLoop chunk resultChunk needle cancelAfter src.length 0 src

/-! ## View State Aggregator (module absent from the provided sources) -/

/-- Modelled from the spec: the Aggregator's owned state — current
generation, latest query text, latest evaluation outcome with the
generation it was applied at, the suggestion page with its generation, and
the spinner phase. -/
structure AggState where
  generation : Nat
  queryText : String
  outcome : Outcome
  outcomeGen : Nat
  suggestions : List String
  suggestionsGen : Nat
  spinnerPhase : Nat

/-- The Aggregator before any event. -/
def AggState.init : AggState :=
  ⟨0, "", Outcome.pending, 0, [], 0, 0⟩

/-- Modelled from the spec: `on_query_changed(text)` bumps the generation,
sets the query state to `Pending`, clears the suggestion page (cancelling
the previous generation's token and re-arming the async units is not part
of this state). -/
def on_query_changed (s : AggState) (text : String) : AggState :=
  { generation := s.generation + 1
    queryText := text
    outcome := Outcome.pending
    outcomeGen := s.generation + 1
    suggestions := []
    suggestionsGen := s.generation + 1
    spinnerPhase := s.spinnerPhase }

/-- Modelled from the spec: `on_eval_result(outcome, generation)` —
compare-and-discard at the single mutation point: the result is applied
only when its tag equals the current generation. -/
def on_eval_result (s : AggState) (o : Outcome) (g : Nat) : AggState :=
  if g = s.generation then { s with outcome := o, outcomeGen := g } else s

/-- Modelled from the spec: `on_suggestion_chunk(chunk, generation)` —
chunk-append, applied only when the tag equals the current generation. -/
def on_suggestion_chunk (s : AggState) (c : List String) (g : Nat) :
    AggState :=
  if g = s.generation then
    { s with suggestions := s.suggestions ++ c, suggestionsGen := g }
  else s

/-- Modelled from the spec: `on_spinner_tick` advances the spinner phase
(independent of generations). -/
def on_spinner_tick (s : AggState) (phase : Nat) : AggState :=
  { s with spinnerPhase := phase }

/-- An event funneled through the Aggregator's single mutation point. -/
inductive AggEvent where
  | queryChanged (text : String)
  | evalResult (o : Outcome) (g : Nat)
  | suggestionChunk (c : List String) (g : Nat)
  | spinnerTick (phase : Nat)

/-- One event applied at the single mutation point. -/
def aggStep (s : AggState) : AggEvent → AggState
  | AggEvent.queryChanged text => on_query_changed s text
  | AggEvent.evalResult o g => on_eval_result s o g
  | AggEvent.suggestionChunk c g => on_suggestion_chunk s c g
  | AggEvent.spinnerTick p => on_spinner_tick s p

/-- A serialized sequence of events applied in order. -/
def aggRun (s : AggState) (events : List AggEvent) : AggState :=
  events.foldl aggStep s

/-- Modelled from the spec: `RenderSnapshot` — the immutable composite the
renderer reads. -/
structure RenderSnapshot where
  queryText : String
  outcome : Outcome
  outcomeGen : Nat
  suggestions : List String
  spinnerPhase : Nat

/-- Modelled from the spec: `snapshot()` builds the render snapshot from
the current state. -/
def snapshot (s : AggState) : RenderSnapshot :=
  ⟨s.queryText, s.outcome, s.outcomeGen, s.suggestions, s.spinnerPhase⟩

end Jnv

/-- The running count of a spinner-op sequence is the initial count plus
the busy calls minus the idle calls. -/
theorem Jnv.spinRun_count (s : Jnv.SpinnerState) (ops : List Jnv.SpinOp) :
    (Jnv.spinRun s ops).count =
      s.count + ops.count Jnv.SpinOp.busy - ops.count Jnv.SpinOp.idle := by
  induction ops generalizing s with
  | nil => simp [Jnv.spinRun]
  | cons op rest ih =>
      cases op <;>
        simp [Jnv.spinRun, List.foldl_cons, Jnv.spinStep, Jnv.mark_busy,
          Jnv.mark_idle, List.count_cons] at ih ⊢ <;>
        rw [ih] <;> push_cast <;> ring

/-! ## Claims C7, C8, C9 -/

/-- C7: the default reactivity configuration sets the query-change debounce
quiet period to 600 ms, the terminal-resize debounce quiet period to 200 ms,
and the spinner tick interval to 300 ms. -/
theorem Jnv.reactivity_defaults :
    Jnv.ReactivityControl.default.query_debounce_duration = 600 ∧
    Jnv.ReactivityControl.default.resize_debounce_duration = 200 ∧
    Jnv.ReactivityControl.default.spin_duration = 300 := by
  refine ⟨rfl, rfl, rfl⟩

/-- C8: the default completion configuration sets
`search_result_chunk_size = 100` and `search_load_chunk_size = 50000`, and
these are precisely the values `main` wires into the `IncrementalSearcher`
and its suggestion-load task when no configuration file overrides them. -/
theorem Jnv.completion_defaults_wiring :
    Jnv.CompletionConfig.default.search_result_chunk_size = 100 ∧
    Jnv.CompletionConfig.default.search_load_chunk_size = 50000 ∧
    (Jnv.mainWiring Jnv.MainConfig.default).1.search_result_chunk_size = 100 ∧
    (Jnv.mainWiring Jnv.MainConfig.default).2.search_load_chunk_size = 50000 := by
  refine ⟨rfl, rfl, rfl, rfl⟩

/-- C9: `edit_mode_validator` maps `"insert"` and `""` to `Insert`,
`"overwrite"` to `Overwrite`, and rejects every other string. -/
theorem Jnv.edit_mode_validator_spec :
    ∀ val : String,
      (Jnv.edit_mode_validator val = Except.ok Jnv.Mode.insert ↔
        (val = "insert" ∨ val = "")) ∧
      (Jnv.edit_mode_validator val = Except.ok Jnv.Mode.overwrite ↔
        val = "overwrite") ∧
      (val ≠ "insert" → val ≠ "" → val ≠ "overwrite" →
        Jnv.edit_mode_validator val =
          Except.error "edit-mode must be 'insert' or 'overwrite'") := by
  intro val
  by_cases h1 : val = "insert"
  · subst h1; refine ⟨by simp [Jnv.edit_mode_validator], ?_, ?_⟩
    · simp [Jnv.edit_mode_validator]
    · intro h _ _; exact absurd rfl h
  · by_cases h2 : val = ""
    · subst h2; refine ⟨by simp [Jnv.edit_mode_validator], ?_, ?_⟩
      · simp [Jnv.edit_mode_validator]
      · intro _ h _; exact absurd rfl h
    · by_cases h3 : val = "overwrite"
      · subst h3; refine ⟨by simp [Jnv.edit_mode_validator], ?_, ?_⟩
        · simp [Jnv.edit_mode_validator]
        · intro _ _ h; exact absurd rfl h
      · have hval : Jnv.edit_mode_validator val =
            Except.error "edit-mode must be 'insert' or 'overwrite'" := by
          unfold Jnv.edit_mode_validator
          split <;> simp_all
        refine ⟨?_, ?_, fun _ _ _ => hval⟩
        · rw [hval]; simp [h1, h2]
        · rw [hval]; simp [h3]

/-- C9 witness: evaluation of the validator at the four concrete inputs. -/
theorem Jnv.edit_mode_validator_spec_witness :
    Jnv.edit_mode_validator "xyz" =
      Except.error "edit-mode must be 'insert' or 'overwrite'" ∧
    Jnv.edit_mode_validator "" = Except.ok Jnv.Mode.insert := by
  constructor
  · exact (Jnv.edit_mode_validator_spec "xyz").2.2
      (by decide) (by decide) (by decide)
  · exact ((Jnv.edit_mode_validator_spec "").1).mpr (Or.inr rfl)

/-! ## Claim C10 -/

/-- C10: `ensure_file_exists` never modifies an existing file — when the
path exists it returns `Ok` with the filesystem unchanged; only when the
path is absent does it write the serialized default configuration there;
and whenever `determine_config_file` returns `Ok(path)`, a file exists at
that path in the resulting filesystem. -/
theorem Jnv.ensure_file_exists_frame :
    ∀ (io : Jnv.IoOracle) (fs : Jnv.FileSystem) (path : Jnv.FsPath)
      (dc : Jnv.MainConfig),
      (fs.pathExists path = true →
        Jnv.ensure_file_exists io fs path dc = Except.ok fs) ∧
      (∀ fs', Jnv.ensure_file_exists io fs path dc = Except.ok fs' →
        fs'.pathExists path = true ∧
        (fs.pathExists path = false →
          (path, Jnv.toml_to_string_pretty dc) ∈ fs'.files)) ∧
      (∀ cp cd p fs',
        Jnv.determine_config_file io fs cp cd dc = Except.ok (p, fs') →
        fs'.pathExists p = true) := by
  have key : ∀ (io : Jnv.IoOracle) (fs : Jnv.FileSystem) (path : Jnv.FsPath)
      (dc : Jnv.MainConfig) (fs' : Jnv.FileSystem),
      Jnv.ensure_file_exists io fs path dc = Except.ok fs' →
      fs'.pathExists path = true ∧
      (fs.pathExists path = false →
        (path, Jnv.toml_to_string_pretty dc) ∈ fs'.files) := by
    intro io fs path dc fs' h
    by_cases hex : fs.pathExists path = true
    · rw [Jnv.ensure_file_exists, if_pos hex] at h
      cases h
      exact ⟨hex, fun hc => by rw [hex] at hc; cases hc⟩
    · rw [Jnv.ensure_file_exists, if_neg hex] at h
      have hmem : (path, Jnv.toml_to_string_pretty dc) ∈ fs'.files := by
        simp only [Jnv.file_create_write] at h
        split at h
        · cases h
        · split at h
          · injection h with h2
            subst h2
            exact List.mem_cons_self _ _
          · cases h
      refine ⟨?_, fun _ => hmem⟩
      rw [Jnv.FileSystem.pathExists, Bool.or_eq_true, List.any_eq_true]
      exact Or.inl ⟨_, hmem, by simp⟩
  intro io fs path dc
  refine ⟨fun hex => by rw [Jnv.ensure_file_exists, if_pos hex], key io fs path dc, ?_⟩
  intro cp cd p fs' h
  rcases cp with _ | path'
  · rcases cd with _ | d
    · rw [Jnv.determine_config_file] at h
      cases h
    · simp only [Jnv.determine_config_file] at h
      split at h
      · cases h
      · rename_i fs1 heq
        injection h with h2
        injection h2 with h3 h4
        subst h3
        subst h4
        exact (key io fs _ dc _ heq).1
  · simp only [Jnv.determine_config_file] at h
    split at h
    · cases h
    · rename_i fs1 heq
      injection h with h2
      injection h2 with h3 h4
      subst h3
      subst h4
      exact (key io fs _ dc _ heq).1

/-- C10 witness: an existing file is left untouched, and
`determine_config_file` on a fresh filesystem yields a path that then
exists. -/
theorem Jnv.ensure_file_exists_frame_witness :
    Jnv.ensure_file_exists ⟨fun _ => true, fun _ => true⟩
        ⟨[], [(["a", "cfg.toml"], "x")]⟩ ["a", "cfg.toml"] Jnv.MainConfig.default =
      Except.ok ⟨[], [(["a", "cfg.toml"], "x")]⟩ ∧
    ∀ p fs', Jnv.determine_config_file ⟨fun _ => true, fun _ => true⟩
        ⟨[], []⟩ none (some ["home"]) Jnv.MainConfig.default =
          Except.ok (p, fs') → fs'.pathExists p = true := by
  constructor
  · exact (Jnv.ensure_file_exists_frame ⟨fun _ => true, fun _ => true⟩
      ⟨[], [(["a", "cfg.toml"], "x")]⟩ ["a", "cfg.toml"] Jnv.MainConfig.default).1
      (by decide)
  · intro p fs' h
    exact (Jnv.ensure_file_exists_frame ⟨fun _ => true, fun _ => true⟩
      ⟨[], []⟩ (["home"] ++ ["jnv", "config.toml"]) Jnv.MainConfig.default).2.2
      none (some ["home"]) p fs' h

/-! ## Claim C4 -/

/-- C4: the Spinner Coordinator keeps a reference count of busy units;
`active` is true iff the count is positive; for any call sequence in which
every prefix has at least as many `mark_busy` as `mark_idle` calls
(matched, arbitrarily interleaved pairs) the count never becomes negative;
and {busy, busy, idle, idle} ends with `active = false`. -/
theorem Jnv.spinner_coordinator :
    (∀ s : Jnv.SpinnerState, s.active = true ↔ 0 < s.count) ∧
    (∀ ops : List Jnv.SpinOp,
      (∀ k : Fin (ops.length + 1),
        (ops.take k.val).count Jnv.SpinOp.idle ≤
          (ops.take k.val).count Jnv.SpinOp.busy) →
      ∀ k : Fin (ops.length + 1),
        0 ≤ (Jnv.spinRun Jnv.SpinnerState.init (ops.take k.val)).count) ∧
    (Jnv.spinRun Jnv.SpinnerState.init
      [Jnv.SpinOp.busy, Jnv.SpinOp.busy, Jnv.SpinOp.idle,
        Jnv.SpinOp.idle]).active = false := by
  refine ⟨fun s => by simp [Jnv.SpinnerState.active], ?_, by decide⟩
  intro ops hbal k
  have h := hbal k
  rw [Jnv.spinRun_count]
  simp only [Jnv.SpinnerState.init]
  omega

/-- C4 witness: the balanced sequence {busy, idle} keeps the count
non-negative at every prefix, e.g. after its first call. -/
theorem Jnv.spinner_coordinator_witness :
    0 ≤ (Jnv.spinRun Jnv.SpinnerState.init
      ([Jnv.SpinOp.busy, Jnv.SpinOp.idle].take 1)).count :=
  Jnv.spinner_coordinator.2.1 [Jnv.SpinOp.busy, Jnv.SpinOp.idle]
    (by decide) ⟨1, by decide⟩

/-! ## Claim C5 -/

/-- C5: evaluating the empty expression yields `Ok(document)` for every
document, and the result does not depend on the external engine at all. -/
theorem Jnv.evaluate_empty_expression :
    ∀ (engine engine' : Jnv.Engine) (document : Jnv.Json),
      Jnv.evaluate engine "" document = Jnv.Outcome.ok document ∧
      Jnv.evaluate engine "" document = Jnv.evaluate engine' "" document := by
  intro engine engine' document
  constructor <;> simp [Jnv.evaluate]

/-! ## Claim C6 -/

/-- C6: the Lazy JSON Row Formatter is pure and deterministic — for every
`(value, fold_state, indent)`, calls made through any two session histories
return the identical row sequence, namely the one computed from the
arguments alone. -/
theorem Jnv.formatter_pure :
    ∀ (s₁ s₂ : Jnv.FormatterSession) (value : Jnv.Json)
      (fold : Jnv.FoldState) (indent : Nat),
      (Jnv.format s₁ value fold indent).1 = (Jnv.format s₂ value fold indent).1 ∧
      (Jnv.format s₁ value fold indent).1 =
        Jnv.formatRows fold indent [] 0 value := by
  intro s₁ s₂ value fold indent
  exact ⟨rfl, rfl⟩

/-- On an armed scheduler, a run of calls each arriving before the
previously armed deadline replaces the payload without firing, ending armed
with the last call's event and deadline. -/
theorem Jnv.debounce_foldl_armed {α : Type} (quiet : Nat) :
    ∀ (calls : List (Nat × α)) (t0 : Nat) (e0 : α) (fired : List α),
      List.Chain' (fun a b => b.1 < a.1 + quiet) ((t0, e0) :: calls) →
      calls.foldl (fun d c => Jnv.schedule quiet d c.1 c.2)
          ⟨Jnv.DebounceState.armed e0 (t0 + quiet), fired⟩ =
        ⟨Jnv.DebounceState.armed (calls.getLastD (t0, e0)).2
          ((calls.getLastD (t0, e0)).1 + quiet), fired⟩ := by
  intro calls
  induction calls with
  | nil => intro t0 e0 fired _; rfl
  | cons c rest ih =>
      intro t0 e0 fired hchain
      obtain ⟨t, e⟩ := c
      rw [List.chain'_cons] at hchain
      have ht : t < t0 + quiet := hchain.1
      rw [List.foldl_cons]
      have hstep :
          Jnv.schedule quiet ⟨Jnv.DebounceState.armed e0 (t0 + quiet), fired⟩ t e =
            ⟨Jnv.DebounceState.armed e (t + quiet), fired⟩ := by
        simp [Jnv.schedule, Nat.not_le.mpr ht]
      rw [hstep, List.getLastD_cons]
      exact ih t e fired hchain.2

/-! ## Claim C2 -/

/-- C2: for any nonempty run of `schedule` calls with consecutive calls
spaced less than the quiet period apart, the trigger is invoked exactly
once, with the payload of the last call — never with a stale event. -/
theorem Jnv.debounce_fires_once_with_latest {α : Type} (quiet : Nat)
    (calls : List (Nat × α)) (hne : calls ≠ [])
    (hspace : List.Chain' (fun a b => b.1 < a.1 + quiet) calls) :
    (Jnv.debounceRun quiet calls).fired = [(calls.getLast hne).2] := by
  obtain ⟨c1, rest, rfl⟩ := List.exists_cons_of_ne_nil hne
  obtain ⟨t1, e1⟩ := c1
  rw [Jnv.debounceRun, List.foldl_cons]
  have h1 : Jnv.schedule quiet Jnv.Debouncer.init t1 e1 =
      ⟨Jnv.DebounceState.armed e1 (t1 + quiet), []⟩ := rfl
  rw [h1, Jnv.debounce_foldl_armed quiet rest t1 e1 [] hspace]
  rw [List.getLast_eq_getLastD]
  rfl

/-- C2 witness: two calls 100 ms apart with a 600 ms quiet period fire the
trigger exactly once, with the second payload. -/
theorem Jnv.debounce_fires_once_with_latest_witness :
    (Jnv.debounceRun 600 [(0, "a"), (100, "b")]).fired = ["b"] := by
  have h := Jnv.debounce_fires_once_with_latest 600 [(0, "a"), (100, "b")]
    (by decide)
    (by rw [List.chain'_cons]; exact ⟨by norm_num, List.chain'_singleton _⟩)
  simpa using h

/-- An uncancelled loader run over a source of length at most `fuel`
performs one iteration per started window: ⌈length / chunk⌉ of them. -/
theorem Jnv.loadLoop_none_length (chunk resultChunk : Nat) (needle : String)
    (hc : 0 < chunk) :
    ∀ (fuel iter : Nat) (src : List String), src.length ≤ fuel →
      (Jnv.loadLoop chunk resultChunk needle none fuel iter src).length =
        (src.length + chunk - 1) / chunk := by
  have h0 : (chunk - 1) / chunk = 0 := Nat.div_eq_of_lt (by omega)
  intro fuel
  induction fuel with
  | zero =>
      intro iter src hle
      have hnil : src = [] := List.eq_nil_of_length_eq_zero (Nat.le_zero.mp hle)
      subst hnil
      simp [Jnv.loadLoop, h0]
  | succ fuel ih =>
      intro iter src hle
      cases src with
      | nil => simp [Jnv.loadLoop, h0]
      | cons x rest =>
          simp only [List.length_cons] at hle
          simp only [Jnv.loadLoop, Jnv.tokenStale, Bool.false_eq_true,
            if_false, List.length_cons]
          rw [ih (iter + 1) ((x :: rest).drop chunk)
            (by rw [List.length_drop, List.length_cons]; omega)]
          rw [List.length_drop, List.length_cons]
          rcases le_or_lt (rest.length + 1) chunk with hsmall | hbig
          · have hz : rest.length + 1 - chunk = 0 := by omega
            rw [hz]
            simp only [Nat.zero_add]
            have h2 : (rest.length + 1 + chunk - 1) / chunk = 1 :=
              Nat.div_eq_of_lt_le (by omega) (by omega)
            omega
          · have h3 : rest.length + 1 - chunk + chunk - 1 =
                rest.length + 1 - 1 := by omega
            have h4 : rest.length + 1 + chunk - 1 =
                (rest.length + 1 - 1) + chunk := by omega
            rw [h3, h4, Nat.add_div_right _ hc]

/-- Cancelling the generation's token once `k` iterations have completed
truncates the delivered chunk sequence to the first `k - iter` remaining
iterations of the uncancelled run. -/
theorem Jnv.loadLoop_cancel_take (chunk resultChunk : Nat) (needle : String)
    (k : Nat) :
    ∀ (fuel iter : Nat) (src : List String),
      Jnv.loadLoop chunk resultChunk needle (some k) fuel iter src =
        (Jnv.loadLoop chunk resultChunk needle none fuel iter src).take
          (k - iter) := by
  intro fuel
  induction fuel with
  | zero =>
      intro iter src
      cases src <;> simp [Jnv.loadLoop]
  | succ fuel ih =>
      intro iter src
      cases src with
      | nil => simp [Jnv.loadLoop]
      | cons x rest =>
          by_cases hk : k ≤ iter
          · have hz : k - iter = 0 := by omega
            simp [Jnv.loadLoop, Jnv.tokenStale, hk, hz]
          · have hs : k - iter = (k - (iter + 1)) + 1 := by omega
            simp only [Jnv.loadLoop, Jnv.tokenStale, decide_eq_true_eq,
              Bool.false_eq_true, if_false, if_neg hk]
            rw [ih (iter + 1), hs, List.take_succ_cons]

/-! ## Claim C3 -/

/-- C3: for chunk size `C > 0` over a source of `M` candidates, the
uncancelled loader performs exactly ⌈M / C⌉ scan iterations (one delivered
chunk each); and a run whose token is invalidated after `k` completed
iterations delivers exactly the chunks of iterations 1..k of the
uncancelled run and nothing further. -/
theorem Jnv.loader_iterations (chunk resultChunk : Nat) (needle : String)
    (src : List String) (k : Nat) (hc : 0 < chunk) :
    (Jnv.loadRun chunk resultChunk needle none src).length =
      (src.length + chunk - 1) / chunk ∧
    Jnv.loadRun chunk resultChunk needle (some k) src =
      (Jnv.loadRun chunk resultChunk needle none src).take k := by
  constructor
  · exact Jnv.loadLoop_none_length chunk resultChunk needle hc
      src.length 0 src le_rfl
  · rw [Jnv.loadRun, Jnv.loadRun,
      Jnv.loadLoop_cancel_take chunk resultChunk needle k src.length 0 src,
      Nat.sub_zero]

/-- C3 witness: five candidates in windows of two make three iterations;
cancelling after one iteration delivers exactly the first chunk. -/
theorem Jnv.loader_iterations_witness :
    (Jnv.loadRun 2 1 "." none [".a", ".b", "c", ".d", ".e"]).length = 3 ∧
    Jnv.loadRun 2 1 "." (some 1) [".a", ".b", "c", ".d", ".e"] =
      (Jnv.loadRun 2 1 "." none [".a", ".b", "c", ".d", ".e"]).take 1 := by
  have h := Jnv.loader_iterations 2 1 "." [".a", ".b", "c", ".d", ".e"] 1
    (by decide)
  exact ⟨by simpa using h.1, h.2⟩

/-! ## Claim C1 -/

/-- C1: only results tagged with the Aggregator's current generation are
ever applied: (i) delivering an evaluation result or suggestion chunk
tagged with an older generation leaves the state — hence `snapshot()` —
exactly unchanged; (ii) over any event trace the outcome and suggestion
page reflected by `snapshot()` always carry the current generation, which
(iii) is exactly the generation set by the last `on_query_changed` call,
since no other event changes it. -/
theorem Jnv.aggregator_generation_guard :
    (∀ (s : Jnv.AggState) (o : Jnv.Outcome) (g : Nat) (c : List String),
      g < s.generation →
        Jnv.on_eval_result s o g = s ∧
        Jnv.on_suggestion_chunk s c g = s ∧
        Jnv.snapshot (Jnv.on_eval_result s o g) = Jnv.snapshot s) ∧
    (∀ (s : Jnv.AggState) (events : List Jnv.AggEvent),
      s.outcomeGen = s.generation ∧ s.suggestionsGen = s.generation →
        (Jnv.aggRun s events).outcomeGen = (Jnv.aggRun s events).generation ∧
        (Jnv.aggRun s events).suggestionsGen =
          (Jnv.aggRun s events).generation) ∧
    (∀ (s : Jnv.AggState) (events : List Jnv.AggEvent),
      (∀ text, Jnv.AggEvent.queryChanged text ∉ events) →
      (Jnv.aggRun s events).generation = s.generation) := by
  refine ⟨?_, ?_, ?_⟩
  · intro s o g c hg
    have h1 : Jnv.on_eval_result s o g = s := by
      rw [Jnv.on_eval_result, if_neg (Nat.ne_of_lt hg)]
    have h2 : Jnv.on_suggestion_chunk s c g = s := by
      rw [Jnv.on_suggestion_chunk, if_neg (Nat.ne_of_lt hg)]
    exact ⟨h1, h2, by rw [h1]⟩
  · intro s events
    induction events generalizing s with
    | nil => intro h; exact ⟨h.1, h.2⟩
    | cons e rest ih =>
        intro h
        rw [Jnv.aggRun, List.foldl_cons]
        refine ih (Jnv.aggStep s e) ?_
        cases e with
        | queryChanged text =>
            exact ⟨rfl, rfl⟩
        | evalResult o g =>
            simp only [Jnv.aggStep, Jnv.on_eval_result]
            split
            · next hgen => exact ⟨hgen, h.2⟩
            · exact h
        | suggestionChunk c g =>
            simp only [Jnv.aggStep, Jnv.on_suggestion_chunk]
            split
            · next hgen => exact ⟨h.1, hgen⟩
            · exact h
        | spinnerTick p =>
            exact h
  · intro s events
    induction events generalizing s with
    | nil => intro _; rfl
    | cons e rest ih =>
        intro hnq
        have hrest : ∀ text, Jnv.AggEvent.queryChanged text ∉ rest := by
          intro text hmem
          exact hnq text (List.mem_cons_of_mem e hmem)
        have hstep : Jnv.aggRun s (e :: rest) =
            Jnv.aggRun (Jnv.aggStep s e) rest := rfl
        rw [hstep, ih (Jnv.aggStep s e) hrest]
        cases e with
        | queryChanged text =>
            exact absurd (List.mem_cons_self _ _) (hnq text)
        | evalResult o g =>
            simp only [Jnv.aggStep, Jnv.on_eval_result]
            split <;> rfl
        | suggestionChunk c g =>
            simp only [Jnv.aggStep, Jnv.on_suggestion_chunk]
            split <;> rfl
        | spinnerTick p =>
            rfl

/-- C1 witness: after a query change the generation is 1; the generation-0
result `Ok(null)` delivered late causes no state transition; the invariant
and generation-stability parts applied to concrete traces. -/
theorem Jnv.aggregator_generation_guard_witness :
    Jnv.on_eval_result (Jnv.on_query_changed Jnv.AggState.init ".a")
        (Jnv.Outcome.ok Jnv.Json.null) 0 =
      Jnv.on_query_changed Jnv.AggState.init ".a" ∧
    (Jnv.aggRun Jnv.AggState.init
        [Jnv.AggEvent.queryChanged ".a",
          Jnv.AggEvent.evalResult (Jnv.Outcome.ok Jnv.Json.null) 1]).outcomeGen =
      (Jnv.aggRun Jnv.AggState.init
        [Jnv.AggEvent.queryChanged ".a",
          Jnv.AggEvent.evalResult (Jnv.Outcome.ok Jnv.Json.null) 1]).generation ∧
    (Jnv.aggRun Jnv.AggState.init
        [Jnv.AggEvent.spinnerTick 1]).generation =
      Jnv.AggState.init.generation := by
  refine ⟨?_, ?_, ?_⟩
  · exact (Jnv.aggregator_generation_guard.1
      (Jnv.on_query_changed Jnv.AggState.init ".a")
      (Jnv.Outcome.ok Jnv.Json.null) 0 [] (by decide)).1
  · exact (Jnv.aggregator_generation_guard.2.1 Jnv.AggState.init
      [Jnv.AggEvent.queryChanged ".a",
        Jnv.AggEvent.evalResult (Jnv.Outcome.ok Jnv.Json.null) 1]
      ⟨rfl, rfl⟩).1
  · exact Jnv.aggregator_generation_guard.2.2 Jnv.AggState.init
      [Jnv.AggEvent.spinnerTick 1]
      (by intro text hmem; simp at hmem)
